import Mathlib

/-!
Shallow embedding of the avenir in-process concurrency library
(src/avenir.h, src/include/Future.h, src/include/ThreadPool.h,
src/source/ThreadPool.cpp) and verification of its specification claims.

The element storage of `queue<T>` (`std::deque<T> m_deque`) is a `List T`
with the deque's front at the head. Locks and condition variables guard the
operations in the source; the embedding models each operation's effect on the
guarded data, and where an operation's outcome depends on a timed
condition-variable wait, the contents of the deque at the moment that wait
returns is an explicit parameter.
-/

namespace Avenir

namespace Queue

/-- Embeds `queue<T>::pop` (avenir.h lines 110-120): under the lock, if
m_deque is non-empty, move out the front element and pop_front it; otherwise
the returned optional stays empty. Returns (popped element, deque after). -/
def pop {T : Type} (q : List T) : Option T × List T :=
  match q with
  | [] => (none, [])
  | x :: rest => (some x, rest)

/-- Embeds the copy loop `for(const T& o : oth.m_deque) m_deque.push_back(o);`
shared by the copy constructor, the copy assignment (avenir.h lines 68-71) and
`copy_from` (lines 192-195): push_back each of src's elements onto dst. -/
def copyLoop {T : Type} (dst src : List T) : List T :=
  match src with
  | [] => dst
  | o :: rest => copyLoop (dst ++ [o]) rest

/-- Embeds the drain loop
`while(!oth.m_deque.empty()) { m_deque.emplace_back(std::move(oth.m_deque.front())); oth.m_deque.pop_front(); }`
shared by the move constructor, the move assignment and `splice` (avenir.h
lines 205-209). Returns (dst after, src after). -/
def moveLoop {T : Type} (dst src : List T) : List T × List T :=
  match src with
  | [] => (dst, [])
  | o :: rest => moveLoop (dst ++ [o]) rest

/-- Embeds `queue<T>::operator=(const queue&)` (avenir.h lines 62-74): behind
the `this != &oth` guard it clears m_deque and then runs the copy loop over
oth; with `sameInstance` (self-assignment) it does nothing. oth is only read
(const reference); the second component returns it as left by the call. -/
def copyAssign {T : Type} (self oth : List T) (sameInstance : Bool) :
    List T × List T :=
  if sameInstance then (self, oth)
  else (copyLoop [] oth, oth)

/-- Embeds `queue<T>::copy_from` (avenir.h lines 187-197): behind the
`this != &oth` guard it runs the copy loop over oth onto self's tail, without
clearing self; with `sameInstance` it does nothing. oth is only read; the
second component returns it as left by the call. -/
def copy_from {T : Type} (self oth : List T) (sameInstance : Bool) :
    List T × List T :=
  if sameInstance then (self, oth)
  else (copyLoop self oth, oth)

/-- Embeds `queue<T>::splice` (avenir.h lines 200-211): behind the
`this != &oth` guard it runs the drain loop, moving oth's elements one at a
time from oth's front to self's tail; with `sameInstance` it does nothing.
Returns (self after, oth after). -/
def splice {T : Type} (self oth : List T) (sameInstance : Bool) :
    List T × List T :=
  if sameInstance then (self, oth)
  else moveLoop self oth

/-- Embeds `queue<T>::wait_for(rel_time)` (avenir.h lines 139-159). The
relative deadline is abstracted as a Nat, unused except for being passed to the
condition variable's timed wait. `qAtWake` is m_deque's contents at the moment
`m_cv.wait_for(lock, rel_time, pred)` returns: the wait returns true exactly
when the predicate `!m_deque.empty()` holds then (an element arrived, or was
present at the timeout instant), and false when the deque is still empty at
timeout. When m_deque is non-empty on entry the else-branch pops the front
immediately without consulting rel_time. Returns (result, deque after). -/
def wait_for {T : Type} (rel_time : Nat) (q qAtWake : List T) :
    Option T × List T :=
  match q with
  | x :: rest => (some x, rest)
  | [] =>
    match rel_time, qAtWake with
    | _, [] => (none, [])
    | _, y :: ys => (some y, ys)

theorem copyLoop_eq_append {T : Type} (dst src : List T) :
    copyLoop dst src = dst ++ src := by
  induction src generalizing dst with
  | nil => simp [copyLoop]
  | cons o rest ih => simp [copyLoop, ih]

theorem moveLoop_eq_append {T : Type} (dst src : List T) :
    moveLoop dst src = (dst ++ src, []) := by
  induction src generalizing dst with
  | nil => simp [moveLoop]
  | cons o rest ih => simp [moveLoop, ih]

end Queue

namespace Channel

/-- Channel status stored in `promise<void>::state::status` (avenir.h line
248, a `short` documented as `0 unset, 1 ready, 2 broken`). -/
inductive Status where
  | unset
  | ready
  | broken
deriving DecidableEq, Repr

/-- Embeds `promise<void>::set` (avenir.h lines 293-296). Its body in the
source is empty (`//TODO`): it changes no status, stores nothing, raises no
error and notifies nobody. Returns (status after, whether notify was called). -/
def promiseVoidSet (st : Status) : Status × Bool := (st, false)

/-- Embeds the abandon block shared by `promise<T>::~promise` (avenir.h lines
343-349) and the move assignment (lines 359-365): under the state mutex, if
status == 0 (unset) set it to 2 (broken) and call notify_all; a settled status
is left untouched and nothing is notified. Returns (status after, whether
notify_all was called). -/
def breakIfUnset (st : Status) : Status × Bool :=
  match st with
  | .unset => (.broken, true)
  | s => (s, false)

/-- Embeds `promise<T>::~promise` (avenir.h lines 339-351): if m_state is
non-null, run the abandon block on its status; a moved-from promise (null
m_state) does nothing. Returns (channel status after, whether notify_all was
called). -/
def promiseDtor (m_state : Option Status) : Option Status × Bool :=
  match m_state with
  | none => (none, false)
  | some s => ((breakIfUnset s).1, (breakIfUnset s).2)

/-- Embeds `promise<T>::operator=(promise&&)` (avenir.h lines 353-370) behind
the `this != &oth` guard: runs the abandon block on this promise's own channel
if m_state is non-null, then steals oth's m_state (leaving oth's null).
Returns (this's old channel status after the block, this's new m_state, oth's
m_state after, whether notify_all was called). -/
def promiseMoveAssign (m_state othState : Option Status) :
    Option Status × Option Status × Option Status × Bool :=
  match m_state with
  | none => (none, othState, none, false)
  | some s => ((breakIfUnset s).1, othState, none, (breakIfUnset s).2)

end Channel

namespace FutureH

/-- Channel state behind `Future<T>` in src/include/Future.h (lines 50-54):
two `std::atomic_flag`s and nothing else — in particular no third status for a
broken channel and no storage for an error. -/
structure State where
  valid_flag : Bool
  ready_flag : Bool
deriving DecidableEq, Repr

/-- A `Future<T>` handle (src/include/Future.h lines 56-57): the two
shared_ptr members, each possibly null (`none`), as a moved-from shared_ptr
is. -/
structure Future (T : Type) where
  m_statePtr : Option State
  m_dataPtr : Option T
deriving DecidableEq, Repr

/-- Embeds `Future<T>::isValid` (Future.h line 36):
`return m_statePtr->valid_flag.test();`. The source dereferences m_statePtr
with no null guard; the embedding maps through the Option, so a null
m_statePtr (a moved-from handle) yields `none` — the marker for an undefined
dereference — rather than any Bool. -/
def isValid {T : Type} (f : Future T) : Option Bool :=
  f.m_statePtr.map (fun st => st.valid_flag)

/-- Embeds `Future<T>::operator=(Future&&)` (Future.h lines 29-34): both
shared_ptr members are moved from oth, which leaves oth's pointers null.
Returns (destination after, source after). The destination's previous
pointers are simply overwritten. -/
def moveAssign {T : Type} (dst src : Future T) : Future T × Future T :=
  (⟨src.m_statePtr, src.m_dataPtr⟩, ⟨none, none⟩)

/-- Embeds `Future<T>::get` (Future.h lines 42-46):
`m_statePtr->ready_flag.wait(false); return *m_dataPtr;`. The result is
`none` when the call never returns a value: a null m_statePtr (undefined
dereference) or a ready_flag that is never set, on which `wait(false)` blocks
forever — as for a channel whose writer was abandoned without setting it. The
return type has no error alternative: the source defines no broken status and
no BrokenPromise error anywhere. -/
def get {T : Type} (f : Future T) : Option T :=
  match f.m_statePtr with
  | none => none
  | some st => if st.ready_flag then f.m_dataPtr else none

end FutureH

namespace ThreadPool

/-- Worker handles (the `std::jthread`s of `std::stack<std::jthread> m_pool`,
ThreadPool.h line 65) are identified abstractly by Nat. The stack is a list
with its top at the head. -/
def Pool : Type := List Nat

/-- Embeds the loop of `ThreadPool::addThreads` (ThreadPool.cpp lines 21-48):
each of numThreads iterations calls `m_pool.emplace(...)`, pushing a fresh
worker onto the top of the stack. `ws` lists the workers spawned, in spawn
order. -/
def addThreads (m_pool : List Nat) (ws : List Nat) : List Nat :=
  match ws with
  | [] => m_pool
  | w :: rest => addThreads (w :: m_pool) rest

/-- Embeds `ThreadPool::getThreadCount` (ThreadPool.cpp line 81):
`return m_pool.size();`. -/
def getThreadCount (m_pool : List Nat) : Nat := m_pool.length

/-- Embeds the loop of `ThreadPool::removeThreads` (ThreadPool.cpp lines
53-58): each of `limit` iterations requests stop on the top worker, notifies
the condition variable, and pops the stack; popping destroys the
std::jthread, whose destructor joins, so the caller blocks until that worker
has fully exited. Returns (pool after, workers joined, in pop order). -/
def removeLoop (limit : Nat) (m_pool : List Nat) : List Nat × List Nat :=
  match limit, m_pool with
  | 0, p => (p, [])
  | _ + 1, [] => ([], [])
  | k + 1, w :: rest => ((removeLoop k rest).1, w :: (removeLoop k rest).2)

/-- Embeds `ThreadPool::removeThreads` (ThreadPool.cpp lines 50-59):
`limit = numThreads > getThreadCount() ? getThreadCount() : numThreads`, then
the stop-notify-pop loop runs `limit` times. Returns (pool after, workers
joined). -/
def removeThreads (m_pool : List Nat) (numThreads : Nat) :
    List Nat × List Nat :=
  removeLoop
    (if numThreads > getThreadCount m_pool then getThreadCount m_pool
     else numThreads)
    m_pool

theorem removeLoop_eq_drop_take (limit : Nat) (m_pool : List Nat) :
    removeLoop limit m_pool = (m_pool.drop limit, m_pool.take limit) := by
  induction limit generalizing m_pool with
  | zero => simp [removeLoop]
  | succ k ih =>
    cases m_pool with
    | nil => simp [removeLoop]
    | cons w rest => simp [removeLoop, ih]

theorem addThreads_eq_reverse_append (m_pool ws : List Nat) :
    addThreads m_pool ws = ws.reverse ++ m_pool := by
  induction ws generalizing m_pool with
  | nil => simp [addThreads]
  | cons w rest ih => simp [addThreads, ih]

theorem clamp_eq_min (n c : Nat) : (if n > c then c else n) = min n c := by
  split <;> omega

end ThreadPool

end Avenir

open Avenir

/-- Claim C4: for distinct queues, splice(other) moves all of other's elements
to self's tail preserving other's internal order (the result is old self
followed by old other), leaves other empty, and preserves the total element
count across both queues; when self and other are the same instance, splice is
a no-op leaving the queue unchanged. -/
theorem queue_splice_moves_all_and_empties :
    ∀ (T : Type) (self oth : List T),
      Queue.splice self oth false = (self ++ oth, []) ∧
      (Queue.splice self oth false).1.length
          + (Queue.splice self oth false).2.length
        = self.length + oth.length ∧
      ∀ q : List T, Queue.splice q q true = (q, q) := by
  intro T self oth
  refine ⟨?_, ?_, ?_⟩
  · simp [Queue.splice, Queue.moveLoop_eq_append]
  · simp [Queue.splice, Queue.moveLoop_eq_append]
  · intro q
    simp [Queue.splice]

/-- Claim C6: try_pop (queue::pop) is non-blocking and never errors: on a
non-empty queue it removes and returns the head (oldest) element leaving the
rest in order; on an empty queue it returns the empty optional and leaves the
queue unchanged. -/
theorem queue_pop_nonblocking :
    ∀ (T : Type) (x : T) (rest : List T),
      Queue.pop (x :: rest) = (some x, rest) ∧
      Queue.pop ([] : List T) = (none, []) := by
  intro T x rest
  exact ⟨rfl, rfl⟩

/-- Claim C5 (code evaluation, by-duration half): wait_for removes and
returns an element already present at the call immediately, with the same
result for any duration value; and when the timeout elapses with the queue
still empty it returns the empty optional — a normal value of the return
type, not an error. The by-deadline half of the claim has no carrier in the
program: `queue<T>::wait_until` (avenir.h line 171) passes its
`std::chrono::time_point` to `m_cv.wait_for`, whose overloads accept only a
`std::chrono::duration`, so template argument deduction fails and
`wait_until` is ill-formed at every instantiation. -/
theorem queue_wait_for_immediate_or_empty :
    ∀ (T : Type) (d d' : Nat) (x : T) (rest qAtWake : List T),
      Queue.wait_for d (x :: rest) qAtWake = (some x, rest) ∧
      Queue.wait_for d (x :: rest) qAtWake
        = Queue.wait_for d' (x :: rest) qAtWake ∧
      Queue.wait_for d ([] : List T) [] = (none, []) := by
  intro T d d' x rest qAtWake
  exact ⟨rfl, rfl, rfl⟩

/-- Claim C9: for distinct queues, copy assignment replaces the destination's
contents — afterwards the destination is exactly a copy of the source in order
with its previous elements discarded, and the source is unchanged — whereas
copy_from appends the source's elements to the destination's tail without
clearing it, also leaving the source unchanged. -/
theorem queue_copy_assign_replaces_copy_from_appends :
    ∀ (T : Type) (self oth : List T),
      Queue.copyAssign self oth false = (oth, oth) ∧
      Queue.copy_from self oth false = (self ++ oth, oth) := by
  intro T self oth
  constructor
  · simp [Queue.copyAssign, Queue.copyLoop_eq_append]
  · simp [Queue.copy_from, Queue.copyLoop_eq_append]

/-- Claim C1 (code evaluation at the failing input): `promise<void>::set` is
an unimplemented stub. Called on an Unset channel it neither stores a value
nor transitions the status to Ready nor notifies any waiter, and called on an
already-settled channel it raises no DoubleCompletion error (its return
carries no error at all) — contradicting the claimed set semantics. -/
theorem promise_void_set_unimplemented :
    Channel.promiseVoidSet .unset = (.unset, false) ∧
    (Channel.promiseVoidSet .unset).1 ≠ .ready ∧
    Channel.promiseVoidSet .ready = (.ready, false) ∧
    Channel.promiseVoidSet .broken = (.broken, false) := by
  decide

/-- Claim C3: destroying a promise, or move-assigning over it, while its
channel is Unset transitions the channel to Broken and calls notify_all
(waking every waiting future); when the channel is already Ready or Broken,
both operations leave the status unchanged and notify nobody. A moved-from
promise (null m_state) touches no channel. -/
theorem promise_abandon_breaks_unset_channel :
    Channel.promiseDtor (some .unset) = (some .broken, true) ∧
    Channel.promiseDtor (some .ready) = (some .ready, false) ∧
    Channel.promiseDtor (some .broken) = (some .broken, false) ∧
    Channel.promiseDtor none = (none, false) ∧
    (∀ oth, Channel.promiseMoveAssign (some .unset) oth
      = (some .broken, oth, none, true)) ∧
    (∀ oth, Channel.promiseMoveAssign (some .ready) oth
      = (some .ready, oth, none, false)) ∧
    (∀ oth, Channel.promiseMoveAssign (some .broken) oth
      = (some .broken, oth, none, false)) := by
  refine ⟨rfl, rfl, rfl, rfl, fun oth => rfl, fun oth => rfl, fun oth => rfl⟩

/-- Claim C2 (code evaluation at the failing input): `Future<T>::get` on a
channel whose writer was abandoned (ready_flag never set) never produces a
BrokenPromise error — it never returns at all (none); its only way to return
is through the stored data once ready_flag is set, and being pure over the
channel state, a repeated get on a ready channel returns the same stored
value. -/
theorem future_get_no_broken_signal :
    FutureH.get ⟨some ⟨true, false⟩, some (42 : Nat)⟩ = none ∧
    FutureH.get ⟨some ⟨true, true⟩, some (42 : Nat)⟩ = some 42 ∧
    FutureH.get ⟨some ⟨true, true⟩, some (42 : Nat)⟩
      = FutureH.get ⟨some ⟨true, true⟩, some (42 : Nat)⟩ := by
  exact ⟨rfl, rfl, rfl⟩

/-- Claim C8 (code evaluation at the failing input): after a move assignment
the source handle's m_statePtr is null, and isValid on it dereferences that
null pointer with no guard — the embedding yields none, not the defined value
false the claim requires. -/
theorem future_isValid_moved_from_derefs_null :
    ∀ (dst src : FutureH.Future Nat),
      FutureH.isValid (FutureH.moveAssign dst src).2 = none ∧
      FutureH.isValid (FutureH.moveAssign dst src).2 ≠ some false := by
  intro dst src
  exact ⟨rfl, by simp [FutureH.moveAssign, FutureH.isValid]⟩

/-- Claim C7: for a pool holding c workers, removeThreads(n) removes exactly
min(n, c) workers — clamping rather than failing when n exceeds c — so that
getThreadCount afterwards returns c - min(n, c); the removed workers are
exactly the min(n, c) selected from the top of the stack, each joined (the
caller blocks until it has fully exited) before the call returns. -/
theorem removeThreads_clamps_and_joins :
    ∀ (m_pool : List Nat) (n : Nat),
      (ThreadPool.removeThreads m_pool n).2.length
          = min n (ThreadPool.getThreadCount m_pool) ∧
      ThreadPool.getThreadCount (ThreadPool.removeThreads m_pool n).1
          = ThreadPool.getThreadCount m_pool
            - min n (ThreadPool.getThreadCount m_pool) ∧
      (ThreadPool.removeThreads m_pool n).2
          = m_pool.take (min n (ThreadPool.getThreadCount m_pool)) := by
  intro m_pool n
  unfold ThreadPool.removeThreads
  rw [ThreadPool.clamp_eq_min, ThreadPool.removeLoop_eq_drop_take]
  refine ⟨?_, ?_, rfl⟩
  · simp only [List.length_take, ThreadPool.getThreadCount]
    omega
  · simp only [ThreadPool.getThreadCount, List.length_drop]

/-- Claim C10: removeThreads selects workers in last-in-first-out order: after
addThreads has pushed the workers ws onto the pool, removing ws.length workers
removes exactly those most recently added workers (from the top of the stack,
most recent first) and leaves every earlier worker in place. -/
theorem removeThreads_lifo_order :
    ∀ (m_pool ws : List Nat),
      (ThreadPool.removeThreads (ThreadPool.addThreads m_pool ws)
          ws.length).2 = ws.reverse ∧
      (ThreadPool.removeThreads (ThreadPool.addThreads m_pool ws)
          ws.length).1 = m_pool := by
  intro m_pool ws
  unfold ThreadPool.removeThreads
  rw [ThreadPool.addThreads_eq_reverse_append, ThreadPool.clamp_eq_min,
    ThreadPool.removeLoop_eq_drop_take]
  have hmin : min ws.length
      (ThreadPool.getThreadCount (ws.reverse ++ m_pool)) = ws.length := by
    simp only [ThreadPool.getThreadCount, List.length_append,
      List.length_reverse]
    omega
  rw [hmin]
  exact ⟨List.take_left' (List.length_reverse ws),
    List.drop_left' (List.length_reverse ws)⟩
